import Mathlib

/-!
Verification of the EC2 resource plugin (`janitor/resources/ec2.py`):
query-clause parsing and merging, state-transition gating, enrichment
filters (attached volumes, images), age filters, and the lifecycle
actions Start / Stop / Terminate, modelled as pure functions over an
explicit data model, with mutating API calls reified as a trace.
-/

namespace Janitor

/-- An EC2 query filter clause `{'Name': ..., 'Values': [...]}` as built by
`QueryFilter.query`. -/
structure Clause where
  Name : String
  Values : List String
deriving Repr, DecidableEq

/-- The dynamically-typed value of the local variable `qf` in
`EC2.resource_query`.  It starts as a Python list of clause dicts, but the
inner loop `for qf in qf:` rebinds the same name, so after an iteration of
that loop `qf` is a single clause dict. -/
inductive QfVal
  | lst (l : List Clause)
  | dct (c : Clause)
deriving Repr, DecidableEq

/-- One pass of the inner `for qf in qf:` body over the whole list: every
clause whose `Name` equals `qd`'s gets `qd`'s values appended (the dicts are
mutated in place in Python; here we rebuild the list). -/
def mergeValues (l : List Clause) (qd : Clause) : List Clause :=
  l.map (fun c => if qd.Name = c.Name then ⟨c.Name, c.Values ++ qd.Values⟩ else c)

/-- The loop of `EC2.resource_query`, with the loop-variable shadowing of
`for qf in qf:` modelled faithfully: iterating over a non-empty list leaves
`qf` bound to its last element (a dict), after which `qf.append(qd)` raises
`AttributeError` and `for qf in qf:` over a dict followed by `qf['Name']`
on a string key raises `TypeError`. -/
def resourceQueryLoop : List Clause → List String → QfVal → Except String QfVal
  | [], _, qf => .ok qf
  | qd :: rest, names, qf =>
    if qd.Name ∈ names then
      match qf with
      | .lst l =>
        let l' := mergeValues l qd
        match l'.getLast? with
        | some c => resourceQueryLoop rest names (.dct c)
        | none => resourceQueryLoop rest names (.lst l')
      | .dct _ => .error "TypeError: string indices must be integers"
    else
      match qf with
      | .lst l => resourceQueryLoop rest (names ++ [qd.Name]) (.lst (l ++ [qd]))
      | .dct _ => .error "AttributeError: dict object has no attribute append"

/-- `EC2.resource_query`: fold the parsed query clauses, merging clauses that
share a name.  Returns the final value of the (shadowed) local `qf`, or the
exception the loop raises. -/
def resource_query (queries : List Clause) : Except String QfVal :=
  resourceQueryLoop queries [] (.lst [])

/-- The merge the spec describes (`Modelled from the spec:` walk declarations
in order; the first occurrence of a name opens a new output clause; a later
declaration with the same name appends its values to that clause's value
list).  Used to compare the code's behaviour with the specified one. -/
def specMerge (queries : List Clause) : List Clause :=
  queries.foldl
    (fun acc qd =>
      if acc.any (fun c => c.Name = qd.Name) then mergeValues acc qd
      else acc ++ [qd])
    []

/-- The `'Ebs'` sub-dict of a block-device mapping entry: the
persistent-volume reference, carrying the attach timestamp. -/
structure EbsInfo where
  AttachTime : Nat
deriving Repr, DecidableEq

/-- One entry of an instance's `BlockDeviceMappings`; `Ebs = none` models the
absence of the `'Ebs'` key (ephemeral storage). -/
structure BlockDevice where
  DeviceName : String
  Ebs : Option EbsInfo
deriving Repr, DecidableEq

/-- The `'State'` sub-dict of an instance record (`i['State']['Name']`). -/
structure InstState where
  Name : String
deriving Repr, DecidableEq

/-- An EC2 instance record, restricted to the fields this module reads. -/
structure Instance where
  InstanceId : String
  ImageId : String
  State : InstState
  BlockDeviceMappings : List BlockDevice
  LaunchTime : Nat
deriving Repr, DecidableEq

/-- A volume record as grouped by `AttachedVolume.get_volume_mapping`
(identifier plus the first attachment's owning instance id). -/
structure Volume where
  VolumeId : String
  attachedInstanceId : String
deriving Repr, DecidableEq

/-- An image record from the bulk image-describe response. -/
structure Image where
  ImageId : String
  meta : String
deriving Repr, DecidableEq

/-- `StateTransitionFilter.filter_instance_state`, returning the retained
list together with the two counts logged at info level
(`"<ClassName> %d of %d instances"`): retained count, then input count. -/
def filter_instance_state (validOriginStates : List String)
    (instances : List Instance) : List Instance × Nat × Nat :=
  let results := instances.filter (fun i => validOriginStates.contains i.State.Name)
  (results, results.length, instances.length)

/-- Python's `all` over a list of booleans. -/
def pyAll (l : List Bool) : Bool := l.all id

/-- Python's `any` over a list of booleans. -/
def pyAny (l : List Bool) : Bool := l.any id

/-- `self.data.get('operator', 'and') == 'and' and all or any`: the volume
combinator is `all` exactly when the configured operator (default `'and'`)
equals `'and'`. -/
def chooseOperator (dataOperator : Option String) : List Bool → Bool :=
  if dataOperator.getD "and" = "and" then pyAll else pyAny

/-- `AttachedVolume.__call__`: look up the instance's volumes in the map
built by `get_volume_mapping` (`none` models a missing key); `if not
volumes:` fails on both a missing key and an empty list; otherwise the
chosen combinator is applied to the per-volume `match` results. -/
def AttachedVolume.call (volumeMap : String → Option (List Volume))
    (op : List Bool → Bool) (matchFn : Volume → Bool) (i : Instance) : Bool :=
  match volumeMap i.InstanceId with
  | none => false
  | some [] => false
  | some vols => op (vols.map matchFn)

/-- `AttachedVolume.process`: builds the volume map (taken here as a
parameter, since it is the response of the bulk volume-describe call),
resolves the combinator and returns `filter(self, resources)`. -/
def AttachedVolume.process (volumeMap : String → Option (List Volume))
    (dataOperator : Option String) (matchFn : Volume → Bool)
    (resources : List Instance) : Option (List Instance) :=
  some (resources.filter
    (AttachedVolume.call volumeMap (chooseOperator dataOperator) matchFn))

/-- `InstanceImage.get_image_mapping`: `{i['ImageId']: i for i in
results['Images']}` — a dict keyed by image id, later entries winning.  The
bulk image-describe response is the parameter. -/
def InstanceImage.get_image_mapping (images : List Image) :
    String → Option Image :=
  fun k => images.reverse.find? (fun img => img.ImageId == k)

/-- `InstanceImage.__call__`: the image map is keyed by image id, but the
lookup uses `i['InstanceId']`; a miss logs a warning and returns `False`,
a hit returns `self.match(image)`. -/
def InstanceImage.call (imageMap : String → Option Image)
    (matchFn : Image → Bool) (i : Instance) : Bool :=
  match imageMap i.InstanceId with
  | none => false
  | some image => matchFn image

/-- `InstanceImage.process`: assigns `self.image_map` (first component) and
falls off the end of the method, so the method's return value (second
component) is Python `None`; the resource list is never filtered. -/
def InstanceImage.process (images : List Image) (_resources : List Instance) :
    (String → Option Image) × Option (List Instance) :=
  (InstanceImage.get_image_mapping images, none)

/-- Modelled from the spec: `AgeFilter.get_resource_date` (in
`janitor/filters.py`, not part of the sources here) returns the instance
attribute named by `date_attribute`, which both age filters set to
`LaunchTime`. -/
def AgeFilter.get_resource_date (i : Instance) : Nat := i.LaunchTime

/-- `InstanceAgeFilter.ebs_key_func = operator.itemgetter('AttachTime')`. -/
def ebs_key_func (e : EbsInfo) : Nat := e.AttachTime

/-- The sort relation used for `sorted(ebs_vols, key=self.ebs_key_func)`. -/
def ebsLE (a b : EbsInfo) : Prop := ebs_key_func a ≤ ebs_key_func b

instance : DecidableRel ebsLE := fun a b => Nat.decLe (ebs_key_func a) (ebs_key_func b)

instance : IsTotal EbsInfo ebsLE := ⟨fun a b => Nat.le_total (ebs_key_func a) (ebs_key_func b)⟩

instance : IsTrans EbsInfo ebsLE := ⟨fun _ _ _ => Nat.le_trans⟩

/-- `InstanceAgeFilter.get_resource_date`: collect `block['Ebs']` for every
block-device mapping that has one; with none, fall back to the base
(launch-time) rule; otherwise sort ascending by attach time and take the
first entry's attach time. -/
def InstanceAgeFilter.get_resource_date (i : Instance) : Nat :=
  if (i.BlockDeviceMappings.filterMap (·.Ebs)).isEmpty then
    AgeFilter.get_resource_date i
  else
    (((i.BlockDeviceMappings.filterMap (·.Ebs)).insertionSort ebsLE).headD
      ⟨0⟩).AttachTime

/-- A mutating EC2 API call as issued through `_run_api`. -/
inductive ApiCall
  | startInstances (instanceIds : List String) (dryRun : Bool)
  | stopInstances (instanceIds : List String) (dryRun : Bool)
  | terminateInstances (instanceIds : List String) (dryRun : Bool)
  | modifyInstanceAttribute (instanceId attrName attrValue : String) (dryRun : Bool)
deriving Repr, DecidableEq

/-- Whether a mutating call carries an empty `InstanceIds` list (the
attribute-modify call addresses a single instance and never can). -/
def ApiCall.hasEmptyInstanceIds : ApiCall → Bool
  | .startInstances ids _ => ids.isEmpty
  | .stopInstances ids _ => ids.isEmpty
  | .terminateInstances ids _ => ids.isEmpty
  | .modifyInstanceAttribute _ _ _ _ => false

/-- Whether a call is a termination-protection-disabling attribute
modification. -/
def ApiCall.isModify : ApiCall → Bool
  | .modifyInstanceAttribute _ _ _ _ => true
  | _ => false

/-- Whether a call is a terminate call. -/
def ApiCall.isTerminate : ApiCall → Bool
  | .terminateInstances _ _ => true
  | _ => false

/-- `Start.valid_origin_states`. -/
def Start.valid_origin_states : List String := ["stopped"]

/-- `Start.process`: gate by state, return with no call when the gated set
is empty, otherwise issue one batched start call. -/
def Start.process (dryrun : Bool) (instances : List Instance) : List ApiCall :=
  if (filter_instance_state Start.valid_origin_states instances).1.length = 0
  then []
  else [.startInstances
    ((filter_instance_state Start.valid_origin_states instances).1.map
      (·.InstanceId)) dryrun]

/-- `Stop.valid_origin_states`. -/
def Stop.valid_origin_states : List String := ["running", "pending"]

/-- The body of `Stop.split_on_storage`'s outer loop for one instance:
every `/dev/sda1` block-device entry appends the instance to the
persistent accumulator when it has an `Ebs` reference and to the ephemeral
accumulator when it does not; other entries are skipped. -/
def splitBD (i : Instance) (acc : List Instance × List Instance)
    (bd : BlockDevice) : List Instance × List Instance :=
  if bd.DeviceName = "/dev/sda1" then
    if bd.Ebs.isSome then (acc.1, acc.2 ++ [i]) else (acc.1 ++ [i], acc.2)
  else acc

/-- The outer-loop body of `Stop.split_on_storage` for one instance: fold
`splitBD` over its block-device mappings. -/
def splitStep (i : Instance) (acc : List Instance × List Instance) :
    List Instance × List Instance :=
  i.BlockDeviceMappings.foldl (splitBD i) acc

/-- `Stop.split_on_storage`: returns `(ephemeral, persistent)`. -/
def Stop.split_on_storage (instances : List Instance) :
    List Instance × List Instance :=
  instances.foldl (fun acc i => splitStep i acc) ([], [])

/-- `Stop.process`: gate by state; when non-empty, split on storage, issue a
terminate call for the ephemeral subset when the `terminate-ephemeral`
option is set, then always issue a stop call for the persistent subset. -/
def Stop.process (terminateEphemeral dryrun : Bool)
    (instances : List Instance) : List ApiCall :=
  if (filter_instance_state Stop.valid_origin_states instances).1.length = 0
  then []
  else
    (if terminateEphemeral then
      [.terminateInstances
        ((Stop.split_on_storage
          (filter_instance_state Stop.valid_origin_states instances).1).1.map
            (·.InstanceId)) dryrun]
     else [])
    ++ [.stopInstances
        ((Stop.split_on_storage
          (filter_instance_state Stop.valid_origin_states instances).1).2.map
            (·.InstanceId)) dryrun]

/-- The batching loop of `chunks`, written with explicit fuel so that it is
structurally recursive; fuel at least the list's length is enough, since a
positive chunk size consumes at least one element per step. -/
def chunksGo (fuel n : Nat) : List α → List (List α)
  | [] => []
  | x :: xs =>
    match fuel with
    | 0 => [x :: xs]
    | fuel + 1 => (x :: xs).take n :: chunksGo fuel n ((x :: xs).drop n)

/-- Modelled from the spec: `utils.chunks` (in `janitor/utils.py`, not part
of the sources here) partitions a list into successive fixed-size batches,
the last possibly shorter. -/
def chunks (n : Nat) (l : List α) : List (List α) :=
  chunksGo l.length n l

/-- `Terminate.valid_origin_states`. -/
def Terminate.valid_origin_states : List String :=
  ["running", "stopped", "pending", "stopping"]

/-- `Terminate.disable_deletion_protection`: one attribute-modify call per
instance, fanned out over a bounded worker pool whose scope blocks until
every call completes; the trace lists the calls in submission order. -/
def Terminate.disable_deletion_protection (dryrun : Bool)
    (instances : List Instance) : List ApiCall :=
  instances.map (fun i =>
    .modifyInstanceAttribute i.InstanceId "disableApiTermination" "false" dryrun)

/-- `Terminate.process`: gate by state; when non-empty, first disable
deletion protection on every gated instance if `force` is set, then issue
one terminate call per 100-instance chunk — each such call passing the
full gated id list, as the source's loop body references `instances`
rather than `batch`. -/
def Terminate.process (force dryrun : Bool)
    (instances : List Instance) : List ApiCall :=
  if (filter_instance_state Terminate.valid_origin_states
        instances).1.length = 0
  then []
  else
    (if force then
      Terminate.disable_deletion_protection dryrun
        (filter_instance_state Terminate.valid_origin_states instances).1
     else [])
    ++ (chunks 100
          (filter_instance_state Terminate.valid_origin_states instances).1).map
        (fun _ => .terminateInstances
          ((filter_instance_state Terminate.valid_origin_states
            instances).1.map (·.InstanceId)) dryrun)

/-- A raw query value: Python `None`, a string, or a list of strings. -/
inductive QVal
  | null
  | str (s : String)
  | strList (l : List String)
deriving Repr, DecidableEq

/-- A raw query declaration: either not a mapping at all, or a mapping
given by its key/value pairs. -/
inductive Decl
  | notMapping
  | mapping (pairs : List (String × QVal))
deriving Repr, DecidableEq

/-- `EC2_VALID_FILTERS`, as the list of its keys (only key membership is
consulted by `QueryFilter.validate`). -/
def EC2_VALID_FILTERS : List String :=
  ["architecture", "availability-zone", "iam-instance-profile.arn",
   "image-id", "instance-id", "instance-lifecycle", "instance-state-name",
   "instance.group-id", "instance.group-name", "tag-key", "tag-value",
   "tag:", "vpc-id"]

/-- Python's `s.startswith(p)`, as a character-list test. -/
def pyStartswith (s p : String) : Bool := p.data.isPrefixOf s.data

/-- `QueryFilter.validate`: reject unless the mapping has exactly one key;
extract the key and value; reject a key neither in the whitelist nor
`tag:`-prefixed; reject a `None` value. -/
def QueryFilter.validate (pairs : List (String × QVal)) :
    Except String (String × QVal) :=
  if pairs.length ≠ 1 then .error "EC2 Query Filter Invalid"
  else
    let key := (pairs.headD ("", .null)).1
    let value := (pairs.headD ("", .null)).2
    if ¬ key ∈ EC2_VALID_FILTERS ∧ ¬ pyStartswith key "tag:" = true then
      .error "EC2 Query Filter invalid filter name"
    else if value = .null then
      .error "EC2 Query Filters must have a value"
    else .ok (key, value)

/-- `QueryFilter.parse`: walk the declarations in order, raising on the
first that is not a mapping or fails `validate`, collecting the validated
key/value pairs otherwise. -/
def QueryFilter.parse : List Decl → Except String (List (String × QVal))
  | [] => .ok []
  | .notMapping :: _ => .error "EC2 Query Filter Invalid structure"
  | .mapping pairs :: rest =>
    match QueryFilter.validate pairs with
    | .error e => .error e
    | .ok kv =>
      match QueryFilter.parse rest with
      | .error e => .error e
      | .ok tl => .ok (kv :: tl)

/-- The claim's characterization of a rejected declaration: not a mapping,
zero or more than one key, a key neither whitelisted nor `tag:`-prefixed,
or a null value. -/
def BadDecl : Decl → Prop
  | .notMapping => True
  | .mapping [(k, v)] =>
      (k ∉ EC2_VALID_FILTERS ∧ ¬ pyStartswith k "tag:" = true) ∨ v = .null
  | .mapping _ => True

instance : DecidablePred BadDecl := fun d =>
  match d with
  | .notMapping => inferInstanceAs (Decidable True)
  | .mapping [(_, _)] => inferInstanceAs (Decidable (_ ∨ _))
  | .mapping [] => inferInstanceAs (Decidable True)
  | .mapping (_ :: _ :: _) => inferInstanceAs (Decidable True)

/-- A state-gated instance with a persistent root device: some block-device
entry for `/dev/sda1` carries an `Ebs` reference. -/
def isPersistentRoot (i : Instance) : Bool :=
  i.BlockDeviceMappings.any
    (fun bd => bd.DeviceName == "/dev/sda1" && bd.Ebs.isSome)

/-- A state-gated instance with an ephemeral root device: some block-device
entry for `/dev/sda1` lacks an `Ebs` reference. -/
def isEphemeralRoot (i : Instance) : Bool :=
  i.BlockDeviceMappings.any
    (fun bd => bd.DeviceName == "/dev/sda1" && !bd.Ebs.isSome)

/-- Concrete instance used as counterexample input: running, with a single
`/dev/sda1` entry backed by a persistent volume. -/
def instPersistent : Instance :=
  ⟨"i-1", "ami-1", ⟨"running"⟩, [⟨"/dev/sda1", some ⟨3⟩⟩], 0⟩

/-- Concrete instance used as counterexample input: running, with a single
`/dev/sda1` entry and no persistent-volume reference. -/
def instEphemeral : Instance :=
  ⟨"i-2", "ami-1", ⟨"running"⟩, [⟨"/dev/sda1", none⟩], 0⟩

/-- Concrete instance used as counterexample input: running, with no
block-device mappings at all. -/
def instBare : Instance :=
  ⟨"i-3", "ami-1", ⟨"running"⟩, [], 0⟩

/-- Concrete image record for the image-filter counterexample. -/
def imgOne : Image := ⟨"ami-1", "linux"⟩

/-- Concrete instance in the `stopped` state, used for Start witnesses. -/
def instStopped : Instance := ⟨"i-4", "ami-1", ⟨"stopped"⟩, [], 0⟩

/-- Concrete instance with two EBS-backed mappings attached at times 9 and
5, used for the age-filter witness. -/
def instTwoEbs : Instance :=
  ⟨"i-9", "ami-1", ⟨"running"⟩, [⟨"/dev/sda1", some ⟨9⟩⟩, ⟨"/dev/sdb", some ⟨5⟩⟩], 2⟩

/-- Concrete volume map for the attached-volume witness: instance `i-1` has
two volumes, everything else none. -/
def vmapDemo : String → Option (List Volume) :=
  fun k => if k == "i-1" then some [⟨"vol-1", "i-1"⟩, ⟨"vol-2", "i-1"⟩] else none

/-- C1: `resource_query` is claimed to return an ordered list of
name-unique clauses with values of duplicate names concatenated in
first-seen order, and to return duplicate-free inputs unchanged.  The
loop-variable shadowing `for qf in qf:` breaks this: on the spec's own
example the merged values are computed, but the function returns the
final clause dict itself instead of the list; with a further distinct
name after the duplicate it raises `AttributeError`.  The duplicate-free
case and the specified merge (`specMerge`) are shown for contrast. -/
theorem C1_resource_query_shadowing :
    resource_query [⟨"instance-state-name", ["running"]⟩,
        ⟨"instance-state-name", ["stopped"]⟩]
      = .ok (.dct ⟨"instance-state-name", ["running", "stopped"]⟩) ∧
    resource_query [⟨"instance-state-name", ["running"]⟩,
        ⟨"instance-state-name", ["stopped"]⟩, ⟨"vpc-id", ["vpc-1"]⟩]
      = .error "AttributeError: dict object has no attribute append" ∧
    resource_query [⟨"instance-state-name", ["running"]⟩, ⟨"vpc-id", ["vpc-1"]⟩]
      = .ok (.lst [⟨"instance-state-name", ["running"]⟩, ⟨"vpc-id", ["vpc-1"]⟩]) ∧
    specMerge [⟨"instance-state-name", ["running"]⟩,
        ⟨"instance-state-name", ["stopped"]⟩]
      = [⟨"instance-state-name", ["running", "stopped"]⟩] :=
  ⟨rfl, rfl, rfl, rfl⟩

/-- C2: the image map is keyed by image id and the claim says a present
image id leads to the predicate's result, but `InstanceImage.__call__`
looks the map up with the instance id: on an instance whose image id is
in the map the filter still returns `false` (the always-true predicate is
never consulted), because `"i-3"` is not a key of the map. -/
theorem C2_image_lookup_by_instance_id :
    InstanceImage.get_image_mapping [imgOne] instBare.ImageId = some imgOne ∧
    (fun _ => true : Image → Bool) imgOne = true ∧
    InstanceImage.call (InstanceImage.get_image_mapping [imgOne])
        (fun _ => true) instBare = false ∧
    instBare.InstanceId ≠ imgOne.ImageId :=
  ⟨rfl, rfl, rfl, by decide⟩

/-- C10: `InstanceImage.process` builds the image map but returns Python
`None`, never filtering the resource list, while `AttachedVolume.process`
returns exactly the resources its per-instance predicate accepts. -/
theorem C10_process_return_values (images : List Image)
    (resources : List Instance) (volumeMap : String → Option (List Volume))
    (dataOperator : Option String) (matchFn : Volume → Bool) :
    (InstanceImage.process images resources).2 = none ∧
    ∃ out, AttachedVolume.process volumeMap dataOperator matchFn resources
        = some out ∧
      ∀ r, r ∈ out ↔ r ∈ resources ∧
        AttachedVolume.call volumeMap (chooseOperator dataOperator) matchFn r
          = true := by
  refine ⟨rfl, _, rfl, fun r => ?_⟩
  exact List.mem_filter

/-- C6: `filter_instance_state` keeps exactly the instances whose state
name is in the valid-origin tuple, as an order-preserving subsequence, and
the retained count it logs is the length of the returned list (the second
logged count being the input length). -/
theorem C6_filter_instance_state (validStates : List String)
    (instances : List Instance) :
    List.Sublist (filter_instance_state validStates instances).1 instances ∧
    (∀ i, i ∈ (filter_instance_state validStates instances).1 ↔
        i ∈ instances ∧ i.State.Name ∈ validStates) ∧
    (filter_instance_state validStates instances).2.1
      = (filter_instance_state validStates instances).1.length ∧
    (filter_instance_state validStates instances).2.2 = instances.length := by
  refine ⟨List.filter_sublist _, fun i => ?_, rfl, rfl⟩
  simp [filter_instance_state, List.mem_filter]

/-- Witness for C6 at the spec's example: states running/stopped/pending
gated by the legal set running/pending retain the running and the pending
instance, and the logged count is the returned length. -/
theorem C6_filter_instance_state_witness :
    (instPersistent ∈ (filter_instance_state ["running", "pending"]
        [instPersistent, instStopped]).1 ∧
      ¬ instStopped ∈ (filter_instance_state ["running", "pending"]
        [instPersistent, instStopped]).1) ∧
    (filter_instance_state ["running", "pending"]
        [instPersistent, instStopped]).2.1
      = (filter_instance_state ["running", "pending"]
        [instPersistent, instStopped]).1.length := by
  have h := C6_filter_instance_state ["running", "pending"]
    [instPersistent, instStopped]
  refine ⟨⟨(h.2.1 instPersistent).mpr ⟨by decide, by decide⟩, fun hc => ?_⟩,
    h.2.2.1⟩
  exact absurd ((h.2.1 instStopped).mp hc).2 (by decide)

/-- C8: the age reference of the InstanceAge filter is the launch
timestamp when the instance has no EBS-backed block-device mappings, and
otherwise the earliest attach timestamp among them (a lower bound of all
attach times that is itself one of them). -/
theorem C8_instance_age_reference (i : Instance) :
    (i.BlockDeviceMappings.filterMap (·.Ebs) = [] →
      InstanceAgeFilter.get_resource_date i = i.LaunchTime) ∧
    (∀ e ∈ i.BlockDeviceMappings.filterMap (·.Ebs),
      InstanceAgeFilter.get_resource_date i ≤ e.AttachTime) ∧
    (i.BlockDeviceMappings.filterMap (·.Ebs) ≠ [] →
      ∃ e ∈ i.BlockDeviceMappings.filterMap (·.Ebs),
        InstanceAgeFilter.get_resource_date i = e.AttachTime) := by
  unfold InstanceAgeFilter.get_resource_date
  by_cases hvols : i.BlockDeviceMappings.filterMap (·.Ebs) = []
  · refine ⟨fun _ => by simp [hvols, AgeFilter.get_resource_date], ?_, ?_⟩
    · intro e he
      rw [hvols] at he
      exact absurd he (List.not_mem_nil e)
    · intro hne
      exact absurd hvols hne
  · have hperm := List.perm_insertionSort ebsLE
      (i.BlockDeviceMappings.filterMap (·.Ebs))
    have hsorted := List.sorted_insertionSort ebsLE
      (i.BlockDeviceMappings.filterMap (·.Ebs))
    have hempty : (i.BlockDeviceMappings.filterMap (·.Ebs)).isEmpty = false := by
      simp [List.isEmpty_iff, hvols]
    rw [hempty]
    simp only [Bool.false_eq_true, if_false]
    obtain ⟨x, t, hx⟩ :
        ∃ x t, List.insertionSort ebsLE
          (i.BlockDeviceMappings.filterMap (·.Ebs)) = x :: t := by
      cases hs : List.insertionSort ebsLE
          (i.BlockDeviceMappings.filterMap (·.Ebs)) with
      | nil =>
        rw [hs] at hperm
        exact absurd (hperm.symm.eq_nil) hvols
      | cons x t => exact ⟨x, t, rfl⟩
    rw [hx]
    rw [hx] at hperm hsorted
    refine ⟨fun hc => absurd hc hvols, fun e he => ?_, fun _ => ?_⟩
    · have hmem : e ∈ x :: t := hperm.symm.subset he
      rcases List.mem_cons.mp hmem with rfl | hmem
      · exact Nat.le_refl _
      · exact List.rel_of_sorted_cons hsorted e hmem
    · exact ⟨x, hperm.subset (List.mem_cons_self x t), rfl⟩

/-- Witness for C8: the instance with EBS mappings attached at 9 and 5 has
age reference 5 (the earliest, a lower bound of the attach time 5), and
the instance with no mappings falls back to its launch timestamp. -/
theorem C8_instance_age_reference_witness :
    InstanceAgeFilter.get_resource_date instTwoEbs ≤ 5 ∧
    InstanceAgeFilter.get_resource_date instTwoEbs = 5 ∧
    InstanceAgeFilter.get_resource_date instBare = instBare.LaunchTime := by
  refine ⟨(C8_instance_age_reference instTwoEbs).2.1 ⟨5⟩ (by decide), rfl,
    (C8_instance_age_reference instBare).1 rfl⟩

/-- `QueryFilter.validate` fails exactly on the declarations the claim
describes (among mappings): zero or several keys, a key neither
whitelisted nor `tag:`-prefixed, or a null value. -/
theorem validate_error_iff (pairs : List (String × QVal)) :
    (∃ e, QueryFilter.validate pairs = .error e) ↔ BadDecl (.mapping pairs) := by
  match pairs with
  | [] => simp [QueryFilter.validate, BadDecl]
  | [(k, v)] =>
    by_cases hk : k ∈ EC2_VALID_FILTERS <;>
      by_cases ht : pyStartswith k "tag:" = true <;>
        by_cases hv : v = QVal.null <;>
          simp [QueryFilter.validate, BadDecl, hk, ht, hv]
  | (p :: q :: rest) =>
    have hlen : (p :: q :: rest).length ≠ 1 := by simp
    constructor
    · intro _
      show True
      trivial
    · intro _
      refine ⟨"EC2 Query Filter Invalid", ?_⟩
      unfold QueryFilter.validate
      rw [if_pos hlen]

/-- C5: `QueryFilter.parse` raises exactly when some declaration is not a
mapping, has zero or more than one key, has a key neither in the whitelist
nor `tag:`-prefixed, or has a null value; and a single-pair declaration
with a `tag:`-prefixed key and non-null value is never rejected. -/
theorem C5_parse_rejects_iff (data : List Decl) :
    ((∃ e, QueryFilter.parse data = .error e) ↔ ∃ d ∈ data, BadDecl d) ∧
    (∀ k v, pyStartswith k "tag:" = true → v ≠ QVal.null →
      ¬ BadDecl (.mapping [(k, v)])) := by
  constructor
  · induction data with
    | nil => simp [QueryFilter.parse]
    | cons d rest ih =>
      cases d with
      | notMapping =>
        refine iff_of_true ⟨"EC2 Query Filter Invalid structure", rfl⟩ ?_
        exact ⟨.notMapping, List.mem_cons_self _ _, trivial⟩
      | mapping pairs =>
        show (∃ e, QueryFilter.parse (.mapping pairs :: rest) = .error e) ↔ _
        unfold QueryFilter.parse
        cases hv : QueryFilter.validate pairs with
        | error e =>
          have hbad : BadDecl (.mapping pairs) :=
            (validate_error_iff pairs).mp ⟨e, hv⟩
          exact iff_of_true ⟨e, rfl⟩ ⟨_, List.mem_cons_self _ _, hbad⟩
        | ok kv =>
          have hnb : ¬ BadDecl (.mapping pairs) := by
            intro hb
            obtain ⟨e, he⟩ := (validate_error_iff pairs).mpr hb
            rw [hv] at he
            exact Except.noConfusion he
          cases hp : QueryFilter.parse rest with
          | error e =>
            obtain ⟨d, hd, hbd⟩ := ih.mp ⟨e, hp⟩
            exact iff_of_true ⟨e, rfl⟩ ⟨d, List.mem_cons_of_mem _ hd, hbd⟩
          | ok tl =>
            refine iff_of_false ?_ ?_
            · rintro ⟨e, he⟩
              exact Except.noConfusion he
            · rintro ⟨d, hd, hbd⟩
              rcases List.mem_cons.mp hd with rfl | hd'
              · exact hnb hbd
              · obtain ⟨e, he⟩ := ih.mpr ⟨d, hd', hbd⟩
                rw [hp] at he
                exact Except.noConfusion he
  · intro k v hk hv hb
    rcases hb with ⟨_, hpre⟩ | hnull
    · exact hpre hk
    · exact hv hnull

/-- Witness for C5: a zero-key mapping is rejected; a `tag:`-prefixed
single-pair declaration with a non-null value is not a rejected shape. -/
theorem C5_parse_rejects_iff_witness :
    (∃ e, QueryFilter.parse [Decl.mapping []] = Except.error e) ∧
    ¬ BadDecl (Decl.mapping [("tag:Team", QVal.str "eng")]) := by
  constructor
  · exact (C5_parse_rejects_iff [Decl.mapping []]).1.mpr
      ⟨Decl.mapping [], by decide, trivial⟩
  · exact (C5_parse_rejects_iff []).2 "tag:Team" (QVal.str "eng") (by decide)
      (by decide)

/-- C7: the AttachedVolume per-instance evaluation fails an instance with
no volumes in the map (missing key or empty list); with volumes present,
the default combinator equals `and`, the `and` combinator accepts exactly
when every volume matches, and the `or` combinator exactly when some
volume matches. -/
theorem C7_attached_volume_combinators
    (volumeMap : String → Option (List Volume)) (matchFn : Volume → Bool)
    (i : Instance) :
    ((volumeMap i.InstanceId = none ∨ volumeMap i.InstanceId = some []) →
      ∀ dataOperator,
        AttachedVolume.call volumeMap (chooseOperator dataOperator) matchFn i
          = false) ∧
    chooseOperator none = chooseOperator (some "and") ∧
    (∀ vols, volumeMap i.InstanceId = some vols → vols ≠ [] →
      (AttachedVolume.call volumeMap (chooseOperator (some "and")) matchFn i
          = true ↔ ∀ v ∈ vols, matchFn v = true) ∧
      (AttachedVolume.call volumeMap (chooseOperator (some "or")) matchFn i
          = true ↔ ∃ v ∈ vols, matchFn v = true)) := by
  have hand : chooseOperator (some "and") = pyAll := rfl
  have hor : chooseOperator (some "or") = pyAny := rfl
  refine ⟨?_, rfl, ?_⟩
  · rintro (h | h) dataOperator <;>
      simp [AttachedVolume.call, h]
  · intro vols hvols hne
    cases vols with
    | nil => exact absurd rfl hne
    | cons v vs =>
      constructor
      · rw [hand]
        simp [AttachedVolume.call, hvols, pyAll, List.all_map, Function.comp,
          List.all_eq_true]
      · rw [hor]
        simp [AttachedVolume.call, hvols, pyAny, List.any_map, Function.comp,
          List.any_eq_true]

/-- Witness for C7: with two volumes where only `vol-1` matches, the `or`
combinator accepts the instance, the `and` combinator rejects it, and an
instance with no volumes in the map is rejected. -/
theorem C7_attached_volume_combinators_witness :
    AttachedVolume.call vmapDemo (chooseOperator (some "or"))
      (fun v => v.VolumeId == "vol-1") instPersistent = true ∧
    AttachedVolume.call vmapDemo (chooseOperator (some "and"))
      (fun v => v.VolumeId == "vol-1") instPersistent = false ∧
    AttachedVolume.call vmapDemo (chooseOperator (some "and"))
      (fun v => v.VolumeId == "vol-1") instBare = false := by
  have h := C7_attached_volume_combinators vmapDemo
    (fun v => v.VolumeId == "vol-1") instPersistent
  refine ⟨?_, rfl, ?_⟩
  · exact (h.2.2 [⟨"vol-1", "i-1"⟩, ⟨"vol-2", "i-1"⟩] (by decide)
      (by decide)).2.mpr ⟨⟨"vol-1", "i-1"⟩, by decide, by decide⟩
  · exact (C7_attached_volume_combinators vmapDemo
      (fun v => v.VolumeId == "vol-1") instBare).1 (Or.inl (by decide))
      (some "and")

/-- `splitBD` only ever appends to the accumulator: its effect on any
accumulator is the effect on the empty one, appended. -/
theorem splitBD_shift (i : Instance) (bd : BlockDevice)
    (acc : List Instance × List Instance) :
    splitBD i acc bd
      = (acc.1 ++ (splitBD i ([], []) bd).1,
         acc.2 ++ (splitBD i ([], []) bd).2) := by
  unfold splitBD
  by_cases h1 : bd.DeviceName = "/dev/sda1" <;>
    by_cases h2 : bd.Ebs.isSome <;> simp [h1, h2]

/-- Folding `splitBD` over a device list only appends to the accumulator. -/
theorem foldl_splitBD_shift (i : Instance) (bds : List BlockDevice) :
    ∀ acc : List Instance × List Instance,
      bds.foldl (splitBD i) acc
        = (acc.1 ++ (bds.foldl (splitBD i) ([], [])).1,
           acc.2 ++ (bds.foldl (splitBD i) ([], [])).2) := by
  induction bds with
  | nil => intro acc; simp
  | cons bd bds ih =>
    intro acc
    simp only [List.foldl_cons]
    rw [ih (splitBD i acc bd), ih (splitBD i ([], []) bd)]
    rw [splitBD_shift i bd acc]
    simp [List.append_assoc]

/-- A device list with no `/dev/sda1` entry leaves the accumulator
untouched. -/
theorem foldl_splitBD_no_root (i : Instance) (bds : List BlockDevice)
    (h : ∀ bd ∈ bds, ¬ bd.DeviceName = "/dev/sda1") :
    ∀ acc, bds.foldl (splitBD i) acc = acc := by
  induction bds with
  | nil => intro acc; rfl
  | cons bd bds ih =>
    intro acc
    simp only [List.foldl_cons]
    rw [show splitBD i acc bd = acc from by
      unfold splitBD
      rw [if_neg (h bd (List.mem_cons_self _ _))]]
    exact ih (fun b hb => h b (List.mem_cons_of_mem _ hb)) acc

/-- With at most one `/dev/sda1` entry, the per-instance fold contributes
the instance to the ephemeral side exactly when a root entry lacks `Ebs`
and to the persistent side exactly when a root entry has it. -/
theorem foldl_splitBD_char (i : Instance) (bds : List BlockDevice)
    (h : bds.countP (fun bd => bd.DeviceName == "/dev/sda1") ≤ 1) :
    bds.foldl (splitBD i) ([], [])
      = ((if bds.any (fun bd =>
            bd.DeviceName == "/dev/sda1" && !bd.Ebs.isSome) then [i] else []),
         (if bds.any (fun bd =>
            bd.DeviceName == "/dev/sda1" && bd.Ebs.isSome) then [i] else [])) := by
  induction bds with
  | nil => rfl
  | cons bd bds ih =>
    by_cases h1 : bd.DeviceName = "/dev/sda1"
    · have hc : bds.countP (fun bd => bd.DeviceName == "/dev/sda1") = 0 := by
        rw [List.countP_cons] at h
        simp only [h1, beq_self_eq_true, if_pos] at h
        omega
      have hnone : ∀ b ∈ bds, ¬ b.DeviceName = "/dev/sda1" := by
        intro b hb heq
        have := List.countP_eq_zero.mp hc b hb
        simp [heq] at this
      have hany : ∀ f : Option EbsInfo → Bool, bds.any (fun bd =>
          bd.DeviceName == "/dev/sda1" && f bd.Ebs) = false := by
        intro f
        rw [List.any_eq_false]
        intro b hb
        simp [hnone b hb]
      simp only [List.foldl_cons]
      rw [foldl_splitBD_no_root i bds hnone]
      cases hE : bd.Ebs with
      | some e =>
        rw [show splitBD i ([], []) bd = ([], [i]) from by
          unfold splitBD
          rw [if_pos h1, hE]
          rfl]
        simp [List.any_cons, h1, hE, hany]
      | none =>
        rw [show splitBD i ([], []) bd = ([i], []) from by
          unfold splitBD
          rw [if_pos h1, hE]
          rfl]
        simp [List.any_cons, h1, hE, hany]
    · have h' : bds.countP (fun bd => bd.DeviceName == "/dev/sda1") ≤ 1 := by
        rw [List.countP_cons] at h
        simp only [beq_iff_eq, h1] at h
        omega
      simp only [List.foldl_cons]
      rw [show splitBD i ([], []) bd = ([], []) from by
        unfold splitBD; rw [if_neg h1]]
      rw [ih h']
      simp [List.any_cons, h1]

/-- Folding `splitStep` over instances only appends to the accumulator. -/
theorem foldl_splitStep_shift (l : List Instance) :
    ∀ acc, l.foldl (fun acc i => splitStep i acc) acc
      = (acc.1 ++ (l.foldl (fun acc i => splitStep i acc) ([], [])).1,
         acc.2 ++ (l.foldl (fun acc i => splitStep i acc) ([], [])).2) := by
  induction l with
  | nil => intro acc; simp
  | cons i l ih =>
    intro acc
    simp only [List.foldl_cons]
    rw [ih (splitStep i acc), ih (splitStep i ([], []))]
    rw [show splitStep i acc
        = (acc.1 ++ (splitStep i ([], [])).1, acc.2 ++ (splitStep i ([], [])).2)
      from foldl_splitBD_shift i i.BlockDeviceMappings acc]
    simp [List.append_assoc]

/-- When every instance has at most one `/dev/sda1` block-device entry,
`split_on_storage` is the pair of filters by root-storage kind. -/
theorem split_on_storage_filter (l : List Instance)
    (h : ∀ i ∈ l, i.BlockDeviceMappings.countP
        (fun bd => bd.DeviceName == "/dev/sda1") ≤ 1) :
    Stop.split_on_storage l
      = (l.filter isEphemeralRoot, l.filter isPersistentRoot) := by
  induction l with
  | nil => rfl
  | cons i l ih =>
    unfold Stop.split_on_storage at ih ⊢
    simp only [List.foldl_cons]
    rw [foldl_splitStep_shift l (splitStep i ([], []))]
    rw [ih (fun j hj => h j (List.mem_cons_of_mem _ hj))]
    rw [show splitStep i ([], [])
        = ((if isEphemeralRoot i then [i] else []),
           (if isPersistentRoot i then [i] else []))
      from foldl_splitBD_char i i.BlockDeviceMappings
        (h i (List.mem_cons_self _ _))]
    by_cases he : isEphemeralRoot i <;> by_cases hp : isPersistentRoot i <;>
      simp [List.filter_cons, he, hp]

/-- C3 counterexample: a single running instance with a persistent root
leaves the ephemeral subset empty, yet with `terminate-ephemeral` set the
Stop action still issues a terminate call whose instance-id list is
empty. -/
theorem C3_counterexample :
    Stop.process true false [instPersistent]
      = [ApiCall.terminateInstances [] false,
         ApiCall.stopInstances ["i-1"] false] ∧
    (ApiCall.terminateInstances [] false).hasEmptyInstanceIds = true :=
  ⟨rfl, rfl⟩

/-- C3 amended: Start and Terminate never issue a mutating call with an
empty instance-id list, and a Stop call with an empty list can only be the
terminate call for an empty ephemeral subset (with `terminate-ephemeral`
set) or the stop call for an empty persistent subset. -/
theorem C3_amended_no_empty_calls (dryrun te force : Bool)
    (instances : List Instance) :
    (∀ c ∈ Start.process dryrun instances, c.hasEmptyInstanceIds = false) ∧
    (∀ c ∈ Terminate.process force dryrun instances,
      c.hasEmptyInstanceIds = false) ∧
    (∀ c ∈ Stop.process te dryrun instances, c.hasEmptyInstanceIds = true →
      (te = true ∧ c = .terminateInstances [] dryrun ∧
        (Stop.split_on_storage
          (filter_instance_state Stop.valid_origin_states instances).1).1 = [])
      ∨ (c = .stopInstances [] dryrun ∧
        (Stop.split_on_storage
          (filter_instance_state Stop.valid_origin_states
            instances).1).2 = [])) := by
  refine ⟨?_, ?_, ?_⟩
  · intro c hc
    unfold Start.process at hc
    by_cases h : (filter_instance_state Start.valid_origin_states
        instances).1.length = 0
    · rw [if_pos h] at hc
      exact absurd hc (List.not_mem_nil c)
    · rw [if_neg h] at hc
      have hne : (filter_instance_state Start.valid_origin_states
          instances).1 ≠ [] := by
        intro hnil
        rw [hnil] at h
        exact h rfl
      rcases List.mem_singleton.mp hc with rfl
      simp [ApiCall.hasEmptyInstanceIds, hne]
  · intro c hc
    unfold Terminate.process at hc
    by_cases h : (filter_instance_state Terminate.valid_origin_states
        instances).1.length = 0
    · rw [if_pos h] at hc
      exact absurd hc (List.not_mem_nil c)
    · rw [if_neg h] at hc
      have hne : (filter_instance_state Terminate.valid_origin_states
          instances).1 ≠ [] := by
        intro hnil
        rw [hnil] at h
        exact h rfl
      rcases List.mem_append.mp hc with hl | hr
      · by_cases hf : force
        · rw [if_pos hf] at hl
          unfold Terminate.disable_deletion_protection at hl
          obtain ⟨i, _, rfl⟩ := List.mem_map.mp hl
          rfl
        · rw [if_neg hf] at hl
          exact absurd hl (List.not_mem_nil c)
      · obtain ⟨batch, _, rfl⟩ := List.mem_map.mp hr
        simp [ApiCall.hasEmptyInstanceIds, hne]
  · intro c hc hempty
    unfold Stop.process at hc
    by_cases h : (filter_instance_state Stop.valid_origin_states
        instances).1.length = 0
    · rw [if_pos h] at hc
      exact absurd hc (List.not_mem_nil c)
    · rw [if_neg h] at hc
      rcases List.mem_append.mp hc with hl | hr
      · by_cases hte : te
        · rw [if_pos hte] at hl
          rcases List.mem_singleton.mp hl with rfl
          simp only [ApiCall.hasEmptyInstanceIds, List.isEmpty_iff,
            List.map_eq_nil_iff] at hempty
          left
          refine ⟨hte, ?_, hempty⟩
          rw [hempty]
          rfl
        · rw [if_neg hte] at hl
          exact absurd hl (List.not_mem_nil c)
      · rcases List.mem_singleton.mp hr with rfl
        simp only [ApiCall.hasEmptyInstanceIds, List.isEmpty_iff,
          List.map_eq_nil_iff] at hempty
        right
        refine ⟨?_, hempty⟩
        rw [hempty]
        rfl

/-- Witness for the amended C3: the start call issued for one stopped
instance carries a non-empty id list. -/
theorem C3_amended_no_empty_calls_witness :
    (ApiCall.startInstances ["i-4"] false).hasEmptyInstanceIds = false :=
  (C3_amended_no_empty_calls false false false [instStopped]).1
    (ApiCall.startInstances ["i-4"] false) (by decide)

/-- C4 counterexample: a running (state-gated) instance with no
block-device mappings is placed in neither the ephemeral nor the
persistent group, so the split is not a partition of the gated set. -/
theorem C4_counterexample :
    (filter_instance_state Stop.valid_origin_states [instBare]).1
      = [instBare] ∧
    ¬ (instBare ∈ (Stop.split_on_storage
        (filter_instance_state Stop.valid_origin_states [instBare]).1).1 ∨
      instBare ∈ (Stop.split_on_storage
        (filter_instance_state Stop.valid_origin_states [instBare]).1).2) := by
  exact ⟨rfl, by decide⟩

/-- C4 amended: on a state-gated set whose instances each carry at most
one `/dev/sda1` mapping entry, the split is the pair of root-storage
filters (an instance with no such entry is in neither group), the
ephemeral group is terminated exactly when `terminate-ephemeral` is set,
and the persistent group always receives the stop call. -/
theorem C4_amended_storage_split (te dryrun : Bool) (l : List Instance)
    (hgate : ∀ i ∈ l, i.State.Name ∈ Stop.valid_origin_states)
    (hroot : ∀ i ∈ l, i.BlockDeviceMappings.countP
        (fun bd => bd.DeviceName == "/dev/sda1") ≤ 1)
    (hne : l ≠ []) :
    Stop.split_on_storage l
      = (l.filter isEphemeralRoot, l.filter isPersistentRoot) ∧
    Stop.process te dryrun l
      = (if te then
          [.terminateInstances ((l.filter isEphemeralRoot).map (·.InstanceId))
            dryrun]
        else [])
        ++ [.stopInstances ((l.filter isPersistentRoot).map (·.InstanceId))
            dryrun] := by
  have hfix : (filter_instance_state Stop.valid_origin_states l).1 = l := by
    simp only [filter_instance_state]
    rw [List.filter_eq_self]
    intro i hi
    simp [hgate i hi]
  have hsplit := split_on_storage_filter l hroot
  refine ⟨hsplit, ?_⟩
  unfold Stop.process
  rw [hfix]
  rw [if_neg (by simpa [List.length_eq_zero] using hne)]
  rw [hsplit]

/-- Witness for the amended C4: one persistent-root and one
ephemeral-root running instance produce a terminate call for the
ephemeral one and a stop call for the persistent one. -/
theorem C4_amended_storage_split_witness :
    Stop.process true false [instPersistent, instEphemeral]
      = [ApiCall.terminateInstances ["i-2"] false,
         ApiCall.stopInstances ["i-1"] false] := by
  rw [(C4_amended_storage_split true false [instPersistent, instEphemeral]
    (by decide) (by decide) (by decide)).2]
  rfl

/-- A non-empty list has at least one chunk. -/
theorem chunks_ne_nil (n : Nat) (l : List Instance) (h : l ≠ []) :
    chunks n l ≠ [] := by
  cases l with
  | nil => exact absurd rfl h
  | cons x xs => exact List.cons_ne_nil _ _

/-- In a trace that is modify calls followed by terminate-free-of-modify
calls, every modify index precedes every terminate index. -/
theorem modify_before_terminate (L A B : List ApiCall) (hL : L = A ++ B)
    (hA : ∀ c ∈ A, c.isTerminate = false)
    (hB : ∀ c ∈ B, c.isModify = false)
    (a b : Fin L.length)
    (ha : (L.get a).isModify = true)
    (hb : (L.get b).isTerminate = true) : (a : Nat) < (b : Nat) := by
  subst hL
  have hlen : (A ++ B).length = A.length + B.length := List.length_append A B
  have haA : (a : Nat) < A.length := by
    by_contra hc
    push_neg at hc
    have halt : (a : Nat) < A.length + B.length := lt_of_lt_of_eq a.isLt hlen
    have hblt : (a : Nat) - A.length < B.length := by omega
    have hgb : (A ++ B).get a = B.get ⟨(a : Nat) - A.length, hblt⟩ := by
      simp only [List.get_eq_getElem]
      exact List.getElem_append_right hc
    have hmod : (B.get ⟨(a : Nat) - A.length, hblt⟩).isModify = true := by
      rw [← hgb]
      exact ha
    rw [hB _ (List.get_mem B _ _)] at hmod
    exact Bool.noConfusion hmod
  have hbB : A.length ≤ (b : Nat) := by
    by_contra hc
    push_neg at hc
    have hgb : (A ++ B).get b = A.get ⟨(b : Nat), hc⟩ := by
      simp only [List.get_eq_getElem]
      exact List.getElem_append_left hc
    have hterm : (A.get ⟨(b : Nat), hc⟩).isTerminate = true := by
      rw [← hgb]
      exact hb
    rw [hA _ (List.get_mem A _ _)] at hterm
    exact Bool.noConfusion hterm
  omega

/-- C9: with force set and a non-empty gated set, the Terminate action
issues a protection-disabling attribute call for every gated instance, at
least one terminate call, and every attribute call precedes every
terminate call in the trace. -/
theorem C9_terminate_force_order (dryrun : Bool) (instances : List Instance)
    (hne : (filter_instance_state Terminate.valid_origin_states
      instances).1 ≠ []) :
    (∀ i ∈ (filter_instance_state Terminate.valid_origin_states instances).1,
      ApiCall.modifyInstanceAttribute i.InstanceId "disableApiTermination"
        "false" dryrun ∈ Terminate.process true dryrun instances) ∧
    (∃ c ∈ Terminate.process true dryrun instances, c.isTerminate = true) ∧
    (∀ a b : Fin (Terminate.process true dryrun instances).length,
      ((Terminate.process true dryrun instances).get a).isModify = true →
      ((Terminate.process true dryrun instances).get b).isTerminate = true →
      (a : Nat) < (b : Nat)) := by
  have hproc : Terminate.process true dryrun instances
      = Terminate.disable_deletion_protection dryrun
          (filter_instance_state Terminate.valid_origin_states instances).1
        ++ (chunks 100
            (filter_instance_state Terminate.valid_origin_states
              instances).1).map
          (fun _ => .terminateInstances
            ((filter_instance_state Terminate.valid_origin_states
              instances).1.map (·.InstanceId)) dryrun) := by
    unfold Terminate.process
    rw [if_neg (by simpa [List.length_eq_zero] using hne), if_pos rfl]
  refine ⟨?_, ?_, ?_⟩
  · intro i hi
    rw [hproc]
    exact List.mem_append_left _ (List.mem_map_of_mem _ hi)
  · obtain ⟨z, zs, hz⟩ := List.exists_cons_of_ne_nil
      (chunks_ne_nil 100 _ hne)
    refine ⟨.terminateInstances
      ((filter_instance_state Terminate.valid_origin_states
        instances).1.map (·.InstanceId)) dryrun, ?_, rfl⟩
    rw [hproc, hz]
    exact List.mem_append_right _ (List.mem_cons_self _ _)
  · intro a b ha hb
    refine modify_before_terminate _ _ _ hproc ?_ ?_ a b ha hb
    · intro c hcm
      obtain ⟨i, _, rfl⟩ := List.mem_map.mp hcm
      rfl
    · intro c hcm
      obtain ⟨batch, _, rfl⟩ := List.mem_map.mp hcm
      rfl

/-- Witness for C9: for one running instance the trace contains its
protection-disabling call. -/
theorem C9_terminate_force_order_witness :
    ApiCall.modifyInstanceAttribute "i-3" "disableApiTermination" "false"
      false ∈ Terminate.process true false [instBare] :=
  (C9_terminate_force_order false [instBare] (by decide)).1 instBare
    (by decide)

end Janitor
